import Mathlib

/-!
Verification of the coop-members authentication and row-level authorization
subsystem.  The definitions below are a shallow embedding of the SQL schema
and functions of the repository (the `public.members` table, the
`register_member` and `login_member` plpgsql functions, the row-level
security policies, and the PostGraphile-generated GraphQL projection of the
`members` table), translated from `migrations/committed/000001.sql`,
`migrations/committed/000002.sql`, `migrations/committed/000003.sql` and the
schema embedded in the repository README (the variant with `is_admin`,
admin policies, and the bootstrap admin insert, which is the latest schema).
-/

namespace CoopMembers

/-- Model of a pgcrypto bf (bcrypt) hash string, as produced by
`crypt(password, gen_salt('bf'))`.  A real bcrypt hash is an opaque text
value that determines the salt and a digest; the digest is a function of
(salt, password).  We use the standard collision-free idealization of the
digest: it is represented by the pair of the salt and the password itself,
so that `crypt pw h = h` holds exactly when `pw` is the password that
produced `h` (with `h`'s salt).  Nothing in the development reads the
`body` field other than `crypt`'s recomputation. -/
structure HashString where
  salt : Nat
  body : String
deriving DecidableEq

/-- Model of `gen_salt('bf')`: a fresh salt drawn from the entropy source.
The caller passes the drawn entropy explicitly (the `n` argument); the
returned setting string carries the salt and an empty digest. -/
def gen_salt (n : Nat) : HashString :=
  ⟨n, ""⟩

/-- Model of pgcrypto `crypt(password, setting)`: reads the salt embedded in
the setting (or in a full stored hash) and recomputes the digest of the
given password under that salt.  For a stored hash `h`,
`crypt pw h = h` iff `pw` is the original password. -/
def crypt (password : String) (setting : HashString) : HashString :=
  ⟨setting.salt, password⟩

/-- The password check used by `login_member`
(`crypt(in_password, m.password_hash) = m.password_hash`). -/
def verifyPassword (password : String) (stored : HashString) : Bool :=
  crypt password stored == stored

/-- One `hash` call of the Password Hashing Service: draws a fresh salt from
the entropy source (modelled as a counter, so successive draws are distinct)
and returns the hash together with the advanced source. -/
def hashPassword (password : String) (g : Nat) : HashString × Nat :=
  (crypt password (gen_salt g), g + 1)

/-- A row of `public.members`
(id SERIAL PRIMARY KEY, first_name, last_name, email TEXT UNIQUE,
password_hash TEXT, is_admin BOOLEAN DEFAULT false). -/
structure MemberRow where
  id : Int
  first_name : String
  last_name : String
  email : String
  password_hash : HashString
  is_admin : Bool
deriving DecidableEq

/-- The `members` table state: the rows plus the SERIAL sequence value that
the next insert will use. -/
structure DB where
  rows : List MemberRow
  seq : Int
deriving DecidableEq

/-- The errors raised by the SQL layer.  `emailExists` is
RAISE EXCEPTION 'A member with this email already exists';
`noMemberFound` is RAISE EXCEPTION 'No member found with that email';
`invalidPassword` is RAISE EXCEPTION 'Invalid password';
`uniqueViolation` is the PostgreSQL unique-constraint error (23505) raised
by `email TEXT NOT NULL UNIQUE` when an insert races past the pre-check;
`withCheckViolation` is the RLS WITH CHECK error on UPDATE. -/
inductive SqlError
  | emailExists
  | noMemberFound
  | invalidPassword
  | uniqueViolation
  | withCheckViolation
deriving DecidableEq

/-- The composite type `public.jwt_token AS (member_id INTEGER, role TEXT)`
returned by `register_member` and `login_member` and signed into a JWT by
PostGraphile. -/
structure JwtToken where
  member_id : Int
  role : String
deriving DecidableEq

/-- `EXISTS(SELECT 1 FROM public.members WHERE email = e)`. -/
def emailTaken (db : DB) (e : String) : Bool :=
  db.rows.any (fun r => r.email == e)

/-- The raw INSERT into `public.members`, guarded by the table's UNIQUE
constraint on `email`: the insert is atomic and rejects a duplicate email
with a unique-constraint violation regardless of any caller pre-check. -/
def insertMember (db : DB) (f l e : String) (h : HashString) (adm : Bool) :
    Except SqlError (Int × DB) :=
  if emailTaken db e then
    .error .uniqueViolation
  else
    .ok (db.seq, ⟨db.rows ++ [⟨db.seq, f, l, e, h, adm⟩], db.seq + 1⟩)

/-- `public.register_member(in_first_name, in_last_name, in_email,
in_password)`: checks for an existing email, inserts the row with the
bf-hashed password (`is_admin` defaults to false), and returns a jwt_token
payload with the new id and role 'member'.  The `salt` argument is the
entropy drawn by `gen_salt('bf')`. -/
def register_member (db : DB) (salt : Nat)
    (in_first_name in_last_name in_email in_password : String) :
    Except SqlError (JwtToken × DB) :=
  if emailTaken db in_email then
    .error .emailExists
  else
    match insertMember db in_first_name in_last_name in_email
        (crypt in_password (gen_salt salt)) false with
    | .error err => .error err
    | .ok (i, db') => .ok (⟨i, "member"⟩, db')

/-- `register_member` as observed by the caller: a raised exception aborts
the transaction, so on error the table state is unchanged. -/
def runRegister (db : DB) (salt : Nat) (f l e p : String) :
    Except SqlError JwtToken × DB :=
  match register_member db salt f l e p with
  | .error err => (.error err, db)
  | .ok (t, db') => (.ok t, db')

/-- `public.login_member(in_email, in_password)`: looks the member up by
email (`SELECT ... WHERE email = in_email LIMIT 1`); raises
'No member found with that email' if absent; raises 'Invalid password' if
`crypt(in_password, m.password_hash) <> m.password_hash`; otherwise returns
the jwt_token with the member's id and role 'admin' when `is_admin`, else
'member'. -/
def login_member (db : DB) (in_email in_password : String) :
    Except SqlError JwtToken :=
  match db.rows.find? (fun r => r.email == in_email) with
  | none => .error .noMemberFound
  | some m =>
    if crypt in_password m.password_hash ≠ m.password_hash then
      .error .invalidPassword
    else
      .ok ⟨m.id, if m.is_admin then "admin" else "member"⟩

/-- The per-request evaluation context of the row-level security policies.
PostGraphile (run with --jwt-secret and --jwt-token-identifier
public.jwt_token) switches the database session to the role named in the
verified JWT's `role` claim and exposes the claims as the settings
`jwt.claims.member_id` and `jwt.claims.role`; `current_setting(..., true)`
yields NULL (`none`) when a setting is absent, and a SQL comparison against
NULL is not true. -/
structure Session where
  dbRole : String
  claimRole : Option String
  claimMemberId : Option Int

/-- Policy `member_select_own FOR SELECT TO public USING
(current_setting('jwt.claims.role', true) = 'member' AND id =
current_setting('jwt.claims.member_id', true)::int)`. -/
def member_select_own (s : Session) (r : MemberRow) : Bool :=
  decide (s.claimRole = some "member") && decide (some r.id = s.claimMemberId)

/-- Policy `member_update_own FOR UPDATE TO public` with USING and
WITH CHECK both `(... role = 'member' AND id = ... member_id ...)`. -/
def member_update_own (s : Session) (r : MemberRow) : Bool :=
  decide (s.claimRole = some "member") && decide (some r.id = s.claimMemberId)

/-- Policy `admin_select_all FOR SELECT TO public USING
(current_setting('jwt.claims.role', true) = 'admin')`. -/
def admin_select_all (s : Session) (_ : MemberRow) : Bool :=
  decide (s.claimRole = some "admin")

/-- Policy `admin_update_all FOR UPDATE TO public` with USING and WITH CHECK
both `(current_setting('jwt.claims.role', true) = 'admin')`. -/
def admin_update_all (s : Session) (_ : MemberRow) : Bool :=
  decide (s.claimRole = some "admin")

/-- Policy `select_all_members FOR SELECT TO anonymous USING (true)`
(migrations 000002/000003, together with GRANT SELECT ON public.members TO
anonymous): applies exactly when the session role is `anonymous`. -/
def select_all_members (s : Session) (_ : MemberRow) : Bool :=
  decide (s.dbRole = "anonymous")

/-- Policy `update_own_member FOR UPDATE TO member USING
(id = current_setting('jwt.claims.member_id', true)::int)` (migrations
000002/000003); it has no WITH CHECK clause, so PostgreSQL applies its
USING expression to the new row as well. -/
def update_own_member (s : Session) (r : MemberRow) : Bool :=
  decide (s.dbRole = "member") && decide (some r.id = s.claimMemberId)

/-- A row is visible to a SELECT iff some applicable permissive SELECT
policy accepts it (policies combine with OR). -/
def selectOk (s : Session) (r : MemberRow) : Bool :=
  member_select_own s r || admin_select_all s r || select_all_members s r

/-- The OR of the USING expressions of the applicable UPDATE policies:
governs which existing rows an UPDATE can see and touch. -/
def updateUsingOk (s : Session) (r : MemberRow) : Bool :=
  member_update_own s r || admin_update_all s r || update_own_member s r

/-- The OR of the WITH CHECK expressions of the applicable UPDATE policies
(for `update_own_member`, which has no WITH CHECK, its USING expression):
every rewritten row must satisfy it or the statement fails. -/
def updateCheckOk (s : Session) (r : MemberRow) : Bool :=
  member_update_own s r || admin_update_all s r || update_own_member s r

/-- The rows a SELECT over `members` returns in a given session: RLS
filters invisible rows out silently (no error). -/
def visibleRows (s : Session) (db : DB) : List MemberRow :=
  db.rows.filter (selectOk s)

/-- `memberById` of the generated API: a primary-key lookup under RLS.  An
invisible row yields an empty result, exactly as if the row did not
exist. -/
def memberById (s : Session) (db : DB) (i : Int) : Option MemberRow :=
  (visibleRows s db).find? (fun r => r.id == i)

/-- `UPDATE members SET ... WHERE pred` under RLS: rows not passing a
USING expression are silently skipped; every rewritten row must pass a
WITH CHECK expression, else the whole statement errors and writes
nothing. -/
def runUpdate (s : Session) (db : DB) (pred : MemberRow → Bool)
    (f : MemberRow → MemberRow) : Except SqlError DB :=
  if db.rows.any (fun r => pred r && updateUsingOk s r && !updateCheckOk s (f r)) then
    .error .withCheckViolation
  else
    .ok ⟨db.rows.map (fun r => if pred r && updateUsingOk s r then f r else r), db.seq⟩

/-- The session of a request bearing a member-role capability for subject
`a`: PostGraphile sets the session role and the `jwt.claims.*` settings
from the verified token `(member_id := a, role := 'member')`. -/
def memberSession (a : Int) : Session :=
  ⟨"member", some "member", some a⟩

/-- The session of a request bearing an admin-role capability for subject
`a` (token `(member_id := a, role := 'admin')`). -/
def adminSession (a : Int) : Session :=
  ⟨"admin", some "admin", some a⟩

/-- The session of a request with no capability: PostGraphile uses the
configured default role and no `jwt.claims.*` settings are present. -/
def anonSession : Session :=
  ⟨"anonymous", none, none⟩

/-- The PostGraphile-generated GraphQL `Member` object type (generated
sdk): `id`, `firstName`, `lastName`, `email` and `passwordHash` are all
selectable output fields. -/
structure GqlMember where
  id : Int
  firstName : String
  lastName : String
  email : String
  passwordHash : HashString
deriving DecidableEq

/-- The column-to-field projection PostGraphile applies to a visible
`members` row. -/
def toGqlMember (m : MemberRow) : GqlMember :=
  ⟨m.id, m.first_name, m.last_name, m.email, m.password_hash⟩

/-- The `allMembers` query: every row visible in the session, projected to
the generated `Member` type. -/
def allMembers (s : Session) (db : DB) : List GqlMember :=
  (visibleRows s db).map toGqlMember

/-- The bootstrap admin row inserted directly by the migration:
INSERT INTO public.members VALUES ('Super', 'Admin', 'admin@example.com',
crypt('CHANGEME', gen_salt('bf')), true). -/
def bootstrapAdmin (salt : Nat) : MemberRow :=
  ⟨1, "Super", "Admin", "admin@example.com", crypt "CHANGEME" (gen_salt salt), true⟩

/-- The table state right after the migration runs: the bootstrap admin is
the only row and the SERIAL sequence stands at 2. -/
def initialDB (salt : Nat) : DB :=
  ⟨[bootstrapAdmin salt], 2⟩

/-- The states of `public.members` reachable through the in-scope flows.
Row creation can only happen in the migration itself (the bootstrap admin
insert) or through `register_member`: the table comment
`@omit create,update,delete` removes the generated insert mutation and
`REVOKE INSERT ON public.members FROM public` blocks direct inserts, and no
in-scope flow deletes rows. -/
inductive Reachable : DB → Prop
  | init (salt : Nat) : Reachable (initialDB salt)
  | step (db : DB) (salt : Nat) (f l e p : String) (t : JwtToken) (db' : DB) :
      Reachable db → register_member db salt f l e p = .ok (t, db') →
      Reachable db'

/-- Inputs of one registration request in the concurrency model. -/
structure RegInput where
  salt : Nat
  first : String
  last : String
  email : String
  password : String

/-- The control state of one in-flight `register_member` call, split at its
two database accesses: the duplicate-email pre-check and the guarded
insert. -/
inductive ThState
  | start
  | passed
  | done (r : Except SqlError JwtToken)

/-- One atomic database access of an in-flight registration: from `start`,
the pre-check either raises 'A member with this email already exists' or
passes; from `passed`, the insert commits (returning the jwt_token) or is
rejected atomically by the UNIQUE constraint on email. -/
def thStep (inp : RegInput) : ThState → DB → ThState × DB
  | .start, db =>
    if emailTaken db inp.email then (.done (.error .emailExists), db)
    else (.passed, db)
  | .passed, db =>
    match insertMember db inp.first inp.last inp.email
        (crypt inp.password (gen_salt inp.salt)) false with
    | .error err => (.done (.error err), db)
    | .ok (i, db') => (.done (.ok ⟨i, "member"⟩), db')
  | .done r, db => (.done r, db)

/-- Two racing registrations A and B over the shared table. -/
structure RaceState where
  a : ThState
  b : ThState
  db : DB

/-- One scheduler step: run the next atomic access of thread A (`true`) or
thread B (`false`); a finished thread stutters. -/
def raceStep (ia ib : RegInput) (st : RaceState) (who : Bool) : RaceState :=
  if who then
    let s := thStep ia st.a st.db
    ⟨s.1, st.b, s.2⟩
  else
    let s := thStep ib st.b st.db
    ⟨st.a, s.1, s.2⟩

/-- Run the race under an arbitrary interleaving. -/
def raceRun (ia ib : RegInput) (st : RaceState) : List Bool → RaceState
  | [] => st
  | w :: ws => raceRun ia ib (raceStep ia ib st w) ws

/-- Did a thread's registration succeed? -/
def isSuccess : ThState → Bool
  | .done (.ok _) => true
  | _ => false

/-- How many of the two racing registrations have succeeded. -/
def succCount (st : RaceState) : Nat :=
  (if isSuccess st.a then 1 else 0) + (if isSuccess st.b then 1 else 0)

/-- The only errors a racing registration can end with: the explicit
duplicate-email exception of the pre-check, or the unique-constraint
rejection of the insert. -/
def errShape : ThState → Prop
  | .done (.error err) => err = .emailExists ∨ err = .uniqueViolation
  | _ => True

/-- A registered member fixture: the row `register_member` writes for
Alice with entropy 7. -/
def demoAlice : MemberRow :=
  ⟨1, "Alice", "Doe", "alice@example.com", crypt "secret123" (gen_salt 7), false⟩

/-- A second member fixture. -/
def demoBob : MemberRow :=
  ⟨2, "Bob", "Roe", "bob@example.com", crypt "hunter2" (gen_salt 9), false⟩

/-- A one-member table. -/
def demoDB : DB :=
  ⟨[demoAlice], 2⟩

/-- A two-member table. -/
def demoDB2 : DB :=
  ⟨[demoAlice, demoBob], 3⟩

/-- Racing registration inputs sharing the email alice@example.com. -/
def demoRegA : RegInput :=
  ⟨0, "Alice", "Doe", "alice@example.com", "secret123"⟩

/-- The second racing registration with the same email. -/
def demoRegB : RegInput :=
  ⟨1, "Al", "Ice", "alice@example.com", "hunter2"⟩

/-- The emails stored in the table, in row order. -/
def emailsOf (db : DB) : List String :=
  db.rows.map (fun r => r.email)

/-- The invariant tying the success count of the two racing registrations
to the presence of their shared email `e`: no success before `e` is in the
table, and never more than one success. -/
def RaceInv (e : String) (st : RaceState) : Prop :=
  (emailTaken st.db e = true → succCount st ≤ 1)
  ∧ (emailTaken st.db e = false → succCount st = 0)

/-- Everything the race preserves: the success-count invariant, uniqueness
of the stored emails, and the shape of the errors a losing thread can
receive. -/
def RaceGood (e : String) (st : RaceState) : Prop :=
  RaceInv e st ∧ (emailsOf st.db).Nodup ∧ errShape st.a ∧ errShape st.b

/-- A copy of Alice's row that differs only in the stored password hash. -/
def demoAliceOtherHash : MemberRow :=
  ⟨1, "Alice", "Doe", "alice@example.com", crypt "other" (gen_salt 7), false⟩

/-- The demo table with the alternative hash for Alice. -/
def demoDBOtherHash : DB :=
  ⟨[demoAliceOtherHash], 2⟩

/-- A patch used in the C10 witness: tries to move the row to id 9. -/
def demoRenumber (r : MemberRow) : MemberRow :=
  ⟨9, r.first_name, r.last_name, r.email, r.password_hash, r.is_admin⟩

/-- A patch used in the C10 witness: changes only the last name. -/
def demoRename (r : MemberRow) : MemberRow :=
  ⟨r.id, r.first_name, "Smith", r.email, r.password_hash, r.is_admin⟩

/-- Characterization of a successful `register_member` call: the email was
free, the new row is appended with the hashed password and `is_admin`
false, and the returned payload carries the new id and role 'member'. -/
theorem register_member_ok (db : DB) (salt : Nat) (f l e p : String)
    (t : JwtToken) (db' : DB)
    (h : register_member db salt f l e p = .ok (t, db')) :
    emailTaken db e = false
    ∧ db'.rows = db.rows ++ [⟨db.seq, f, l, e, crypt p (gen_salt salt), false⟩]
    ∧ db'.seq = db.seq + 1
    ∧ t = ⟨db.seq, "member"⟩ := by
  by_cases he : emailTaken db e = true
  · simp [register_member, he] at h
  · simp only [Bool.not_eq_true] at he
    simp [register_member, insertMember, he] at h
    obtain ⟨ht, hdb⟩ := h
    exact ⟨he, by rw [← hdb], by rw [← hdb], ht.symm⟩

/-- A member-session SELECT policy check passes exactly on the subject's
own row. -/
theorem selectOk_memberSession (a : Int) (r : MemberRow) :
    selectOk (memberSession a) r = decide (r.id = a) := by
  simp [selectOk, member_select_own, admin_select_all, select_all_members, memberSession]

/-- An admin-session SELECT policy check passes on every row. -/
theorem selectOk_adminSession (a : Int) (r : MemberRow) :
    selectOk (adminSession a) r = true := by
  simp [selectOk, member_select_own, admin_select_all, select_all_members, adminSession]

/-- An anonymous-session SELECT policy check passes on every row, through
the `select_all_members` policy. -/
theorem selectOk_anonSession (r : MemberRow) :
    selectOk anonSession r = true := by
  simp [selectOk, member_select_own, admin_select_all, select_all_members, anonSession]

/-- A member-session UPDATE is visible/permitted exactly on the subject's
own row, for both the USING and the WITH CHECK side. -/
theorem updateOk_memberSession (a : Int) (r : MemberRow) :
    updateUsingOk (memberSession a) r = decide (r.id = a)
    ∧ updateCheckOk (memberSession a) r = decide (r.id = a) := by
  constructor <;>
    simp [updateUsingOk, updateCheckOk, member_update_own, admin_update_all,
      update_own_member, memberSession]

/-- An admin-session UPDATE is permitted on every row, old and new. -/
theorem updateOk_adminSession (a : Int) (r : MemberRow) :
    updateUsingOk (adminSession a) r = true
    ∧ updateCheckOk (adminSession a) r = true := by
  constructor <;>
    simp [updateUsingOk, updateCheckOk, member_update_own, admin_update_all,
      update_own_member, adminSession]

/-- An anonymous session passes no UPDATE policy on any row. -/
theorem updateOk_anonSession (r : MemberRow) :
    updateUsingOk anonSession r = false
    ∧ updateCheckOk anonSession r = false := by
  constructor <;>
    simp [updateUsingOk, updateCheckOk, member_update_own, admin_update_all,
      update_own_member, anonSession]

/-- C7: for every plaintext, two separate hash calls on the identical
plaintext (drawing successive fresh salts from the entropy source) produce
different stored hash strings, and the login-side verification accepts the
plaintext against each of the two. -/
theorem hash_twice_differs_both_verify (pw : String) (g : Nat) :
    (hashPassword pw g).1 ≠ (hashPassword pw (hashPassword pw g).2).1
    ∧ verifyPassword pw (hashPassword pw g).1 = true
    ∧ verifyPassword pw (hashPassword pw (hashPassword pw g).2).1 = true := by
  refine ⟨?_, ?_, ?_⟩ <;>
    simp [hashPassword, verifyPassword, crypt, gen_salt, HashString.mk.injEq]

/-- C8 (amended): `register_member` performs no validation of its fields.
Whenever the email — empty or not — is not already present, the call
succeeds, writes one row holding exactly the supplied field values, and
returns a member-role payload; no InvalidInput error exists. -/
theorem register_accepts_any_fields (db : DB) (salt : Nat) (f l e p : String)
    (hfree : emailTaken db e = false) :
    runRegister db salt f l e p =
      (.ok ⟨db.seq, "member"⟩,
        ⟨db.rows ++ [⟨db.seq, f, l, e, crypt p (gen_salt salt), false⟩], db.seq + 1⟩) := by
  simp [runRegister, register_member, insertMember, hfree]

/-- Witness for C8 (amended): registering with every field empty on an
empty table succeeds and writes the empty-field row. -/
theorem register_accepts_any_fields_witness :
    emailTaken ⟨[], 1⟩ "" = false
    ∧ runRegister ⟨[], 1⟩ 0 "" "" "" "" =
        (.ok ⟨1, "member"⟩, ⟨[⟨1, "", "", "", crypt "" (gen_salt 0), false⟩], 2⟩) :=
  ⟨rfl, register_accepts_any_fields ⟨[], 1⟩ 0 "" "" "" "" rfl⟩

/-- C8 counterexample: a `register` call whose fields are all empty does
not fail with any input error — it succeeds, writes a row, and a second
call with the same empty email then fails with the duplicate-email error,
contradicting the claimed InvalidInput-never-touches-storage behaviour. -/
theorem register_empty_fields_not_rejected :
    (runRegister ⟨[], 1⟩ 0 "" "" "" "").1 = .ok ⟨1, "member"⟩
    ∧ (runRegister ⟨[], 1⟩ 0 "" "" "" "").2.rows.length = 1
    ∧ (runRegister (runRegister ⟨[], 1⟩ 0 "" "" "" "").2 1 "" "" "" "").1 =
        .error .emailExists :=
  ⟨rfl, rfl, rfl⟩

/-- C1 (amended): `login_member` fails whenever the email is unknown or the
password does not verify, and succeeds on a registered pair — but the two
failure causes surface as two distinct raised errors ('No member found with
that email' vs 'Invalid password'), so they are distinguishable in the
externally observable result. -/
theorem login_failure_modes (db : DB) (e p : String) :
    (db.rows.find? (fun r => r.email == e) = none →
      login_member db e p = .error .noMemberFound)
    ∧ (∀ m, db.rows.find? (fun r => r.email == e) = some m →
        crypt p m.password_hash ≠ m.password_hash →
        login_member db e p = .error .invalidPassword)
    ∧ (∀ m, db.rows.find? (fun r => r.email == e) = some m →
        crypt p m.password_hash = m.password_hash →
        login_member db e p = .ok ⟨m.id, if m.is_admin then "admin" else "member"⟩)
    ∧ SqlError.noMemberFound ≠ SqlError.invalidPassword := by
  refine ⟨?_, ?_, ?_, by decide⟩
  · intro h
    simp [login_member, h]
  · intro m hm hne
    simp [login_member, hm, hne]
  · intro m hm heq
    simp [login_member, hm, heq]

/-- Witness for C1 (amended): on the demo table, an unknown email fails,
and the registered pair logs in with role member. -/
theorem login_failure_modes_witness :
    login_member demoDB "nobody@example.com" "x" = .error .noMemberFound
    ∧ login_member demoDB "alice@example.com" "secret123" = .ok ⟨1, "member"⟩ :=
  ⟨(login_failure_modes demoDB "nobody@example.com" "x").1 rfl,
    (login_failure_modes demoDB "alice@example.com" "secret123").2.2.1 demoAlice rfl rfl⟩

/-- C1 counterexample: on a table holding only Alice's credential, a login
with an unknown email and a login with Alice's email but a wrong password
produce two different error values, so the failure causes are externally
distinguishable, contrary to the claimed single indistinguishable
AuthenticationFailed outcome. -/
theorem login_errors_distinguishable :
    login_member demoDB "nobody@example.com" "secret123" = .error .noMemberFound
    ∧ login_member demoDB "alice@example.com" "wrong" = .error .invalidPassword
    ∧ SqlError.noMemberFound ≠ SqlError.invalidPassword :=
  ⟨rfl, rfl, by decide⟩

/-- C4 (amended): the generated GraphQL schema exposes `passwordHash` as a
selectable field of `Member`, so every row visible in a session is returned
with its stored password hash in the client-visible output. -/
theorem password_hash_in_output (s : Session) (db : DB) (m : MemberRow)
    (h : m ∈ visibleRows s db) :
    toGqlMember m ∈ allMembers s db
    ∧ (toGqlMember m).passwordHash = m.password_hash :=
  ⟨List.mem_map_of_mem toGqlMember h, rfl⟩

/-- Witness for C4 (amended): an admin session sees Alice's row, and the
projected output carries her stored password hash. -/
theorem password_hash_in_output_witness :
    demoAlice ∈ visibleRows (adminSession 1) demoDB
    ∧ (toGqlMember demoAlice ∈ allMembers (adminSession 1) demoDB
        ∧ (toGqlMember demoAlice).passwordHash = demoAlice.password_hash) :=
  ⟨by decide, password_hash_in_output (adminSession 1) demoDB demoAlice (by decide)⟩

/-- C4 counterexample: two table states that differ only in one stored
password_hash value are distinguishable through the client-visible
`allMembers` read of an admin session, so the stored hash does appear in
output returned outside the store. -/
theorem password_hash_distinguishes_states :
    demoAlice.id = demoAliceOtherHash.id
    ∧ demoAlice.first_name = demoAliceOtherHash.first_name
    ∧ demoAlice.last_name = demoAliceOtherHash.last_name
    ∧ demoAlice.email = demoAliceOtherHash.email
    ∧ demoAlice.is_admin = demoAliceOtherHash.is_admin
    ∧ demoAlice.password_hash ≠ demoAliceOtherHash.password_hash
    ∧ allMembers (adminSession 1) demoDB ≠ allMembers (adminSession 1) demoDBOtherHash :=
  ⟨rfl, rfl, rfl, rfl, rfl, by decide, by decide⟩

/-- C2: a member-role capability for subject `a` sees and may update
exactly the row with id = a — any other row yields an empty result rather
than an error — while an admin-role capability sees and may update every
row. -/
theorem row_isolation (a i : Int) (db : DB) (r : MemberRow) :
    (r ∈ visibleRows (memberSession a) db ↔ r ∈ db.rows ∧ r.id = a)
    ∧ (i ≠ a → memberById (memberSession a) db i = none)
    ∧ updateUsingOk (memberSession a) r = decide (r.id = a)
    ∧ updateCheckOk (memberSession a) r = decide (r.id = a)
    ∧ (r ∈ visibleRows (adminSession a) db ↔ r ∈ db.rows)
    ∧ updateUsingOk (adminSession a) r = true
    ∧ updateCheckOk (adminSession a) r = true := by
  refine ⟨?_, ?_, (updateOk_memberSession a r).1, (updateOk_memberSession a r).2,
    ?_, (updateOk_adminSession a r).1, (updateOk_adminSession a r).2⟩
  · simp [visibleRows, List.mem_filter, selectOk_memberSession]
  · intro hne
    apply List.find?_eq_none.mpr
    intro x hx
    have hxa : x.id = a := by
      have := List.mem_filter.mp hx
      simpa [selectOk_memberSession] using this.2
    simp [hxa]
    omega
  · simp [visibleRows, List.mem_filter, selectOk_adminSession]

/-- Witness for C2: in the two-member demo table, subject 1's member
session resolves id 2 to an empty result, its update check is exactly the
ownership test, and the admin session sees every row. -/
theorem row_isolation_witness :
    (2 : Int) ≠ 1
    ∧ memberById (memberSession 1) demoDB2 2 = none
    ∧ updateUsingOk (memberSession 1) demoAlice = decide (demoAlice.id = 1)
    ∧ (demoBob ∈ visibleRows (adminSession 1) demoDB2 ↔ demoBob ∈ demoDB2.rows) :=
  ⟨by decide, (row_isolation 1 2 demoDB2 demoAlice).2.1 (by decide),
    (row_isolation 1 2 demoDB2 demoAlice).2.2.1,
    (row_isolation 1 2 demoDB2 demoBob).2.2.2.2.1⟩

/-- C10: when an UPDATE under a member-role capability for subject `a`
succeeds, every row it touched satisfied id = a before the update and
still satisfies id = a afterwards — the WITH CHECK side re-applies the
ownership predicate to the written row. -/
theorem member_update_keeps_ownership (a : Int) (db : DB)
    (pred : MemberRow → Bool) (f : MemberRow → MemberRow) (db' : DB)
    (r : MemberRow)
    (h : runUpdate (memberSession a) db pred f = .ok db')
    (hr : r ∈ db.rows) (hp : pred r = true)
    (hu : updateUsingOk (memberSession a) r = true) :
    r.id = a ∧ (f r).id = a := by
  have hcheck : updateCheckOk (memberSession a) (f r) = true := by
    by_contra hc
    have hany : db.rows.any
        (fun x => pred x && updateUsingOk (memberSession a) x
          && !updateCheckOk (memberSession a) (f x)) = true := by
      refine List.any_eq_true.mpr ⟨r, hr, ?_⟩
      simp [hp, hu, Bool.eq_false_iff.mpr hc]
    simp [runUpdate, hany] at h
  constructor
  · have := (updateOk_memberSession a r).1
    rw [this] at hu
    exact of_decide_eq_true hu
  · have := (updateOk_memberSession a (f r)).2
    rw [this] at hcheck
    exact of_decide_eq_true hcheck

/-- Witness for C10: under subject 1's member session a last-name-only
update of the own row succeeds and both the old and the new row carry
id 1; the id-reassigning patch is refused outright. -/
theorem member_update_keeps_ownership_witness :
    runUpdate (memberSession 1) demoDB (fun x => x.id == 1) demoRename =
      .ok ⟨[demoRename demoAlice], 2⟩
    ∧ demoAlice ∈ demoDB.rows
    ∧ (fun x => x.id == 1) demoAlice = true
    ∧ updateUsingOk (memberSession 1) demoAlice = true
    ∧ (demoAlice.id = 1 ∧ (demoRename demoAlice).id = 1)
    ∧ runUpdate (memberSession 1) demoDB (fun x => x.id == 1) demoRenumber =
        .error .withCheckViolation :=
  ⟨rfl, by decide, rfl, by decide,
    member_update_keeps_ownership 1 demoDB (fun x => x.id == 1) demoRename
      ⟨[demoRename demoAlice], 2⟩ demoAlice rfl (by decide) rfl (by decide),
    rfl⟩

/-- C5: `register_member` always issues a member-role payload whose
subject is the freshly inserted row's id, and `login_member` issues a
payload whose subject is the matched credential's id and whose role is
admin exactly when the stored `is_admin` flag is true at that moment. -/
theorem capability_role_at_issuance (db : DB) (salt : Nat) (f l e p : String)
    (t t2 : JwtToken) (db' : DB) (m : MemberRow) :
    (register_member db salt f l e p = .ok (t, db') →
      t.role = "member" ∧ t.member_id = db.seq
      ∧ (⟨db.seq, f, l, e, crypt p (gen_salt salt), false⟩ : MemberRow) ∈ db'.rows)
    ∧ (db.rows.find? (fun r => r.email == e) = some m →
      login_member db e p = .ok t2 →
      t2.member_id = m.id ∧ t2.role = (if m.is_admin then "admin" else "member")) := by
  constructor
  · intro h
    obtain ⟨-, hrows, -, ht⟩ := register_member_ok db salt f l e p t db' h
    subst ht
    exact ⟨rfl, rfl, by simp [hrows]⟩
  · intro hm hl
    by_cases hpw : crypt p m.password_hash = m.password_hash
    · simp [login_member, hm, hpw] at hl
      rw [← hl]
      exact ⟨rfl, rfl⟩
    · simp [login_member, hm, hpw] at hl

/-- Witness for C5: registering Alice on an empty table issues the
member-role payload for the new id 1, and the bootstrap admin's login
issues an admin-role payload for its id. -/
theorem capability_role_at_issuance_witness :
    ((⟨1, "member"⟩ : JwtToken).role = "member"
      ∧ (⟨1, "member"⟩ : JwtToken).member_id = 1
      ∧ (⟨1, "Alice", "Doe", "alice@example.com", crypt "secret123" (gen_salt 7),
          false⟩ : MemberRow) ∈ (⟨[demoAlice], 2⟩ : DB).rows)
    ∧ ((⟨1, "admin"⟩ : JwtToken).member_id = (bootstrapAdmin 3).id
      ∧ (⟨1, "admin"⟩ : JwtToken).role =
          (if (bootstrapAdmin 3).is_admin then "admin" else "member")) :=
  ⟨(capability_role_at_issuance ⟨[], 1⟩ 7 "Alice" "Doe" "alice@example.com"
      "secret123" ⟨1, "member"⟩ ⟨1, "member"⟩ ⟨[demoAlice], 2⟩ demoAlice).1 rfl,
    (capability_role_at_issuance (initialDB 3) 0 "" "" "admin@example.com"
      "CHANGEME" ⟨1, "admin"⟩ ⟨1, "admin"⟩ (initialDB 3) (bootstrapAdmin 3)).2 rfl rfl⟩

/-- C6 (amended): under the anonymous role no UPDATE policy passes on any
row, but the `select_all_members` policy (together with GRANT SELECT to
anonymous) makes every members row readable, so anonymous requests read
the whole table rather than nothing; registration and login stay reachable
as SECURITY DEFINER functions independent of the session. -/
theorem anonymous_access (db : DB) :
    visibleRows anonSession db = db.rows
    ∧ (∀ r : MemberRow, updateUsingOk anonSession r = false)
    ∧ (∀ r : MemberRow, updateCheckOk anonSession r = false) := by
  refine ⟨?_, fun r => (updateOk_anonSession r).1, fun r => (updateOk_anonSession r).2⟩
  apply List.filter_eq_self.mpr
  intro r _
  exact selectOk_anonSession r

/-- C6 counterexample: on the two-member demo table an anonymous session
reads every row — a nonempty result — contradicting the claim that no
Credential row is readable without a capability. -/
theorem anonymous_reads_rows :
    visibleRows anonSession demoDB2 = demoDB2.rows
    ∧ demoDB2.rows ≠ [] :=
  ⟨rfl, by decide⟩

/-- C9 (amended): in every reachable table state, each row either was
written by `register_member` — and so carries `is_admin = false` and a
hash produced by the registration hashing step — or is the bootstrap admin
row inserted directly by the migration; no other creation path exists
(INSERT is revoked from public and the generated create mutation is
omitted). -/
theorem member_rows_provenance (db : DB) (h : Reachable db) :
    ∀ r ∈ db.rows, r.is_admin = false ∨ ∃ salt, r = bootstrapAdmin salt := by
  induction h with
  | init salt =>
    intro r hr
    simp only [initialDB, List.mem_singleton] at hr
    exact .inr ⟨salt, hr⟩
  | step db salt f l e p t db' hdb hreg ih =>
    intro r hr
    obtain ⟨-, hrows, -, -⟩ := register_member_ok db salt f l e p t db' hreg
    rw [hrows, List.mem_append, List.mem_singleton] at hr
    rcases hr with hr | hr
    · exact ih r hr
    · subst hr
      exact .inl rfl

/-- Witness for C9 (amended): the migrated initial state is reachable and
its admin-flagged row is recognized as the bootstrap insert. -/
theorem member_rows_provenance_witness :
    bootstrapAdmin 0 ∈ (initialDB 0).rows
    ∧ ((bootstrapAdmin 0).is_admin = false ∨ ∃ salt, bootstrapAdmin 0 = bootstrapAdmin salt) :=
  ⟨by decide,
    member_rows_provenance (initialDB 0) (Reachable.init 0) (bootstrapAdmin 0) (by decide)⟩

/-- C9 counterexample: the migrated initial state already holds a row the
Registration Flow can never have created — its `is_admin` flag is true,
while a registration of the very same field data writes only
`is_admin = false` rows — so not every Credential row is created by the
Registration Flow. -/
theorem bootstrap_row_not_registered :
    Reachable (initialDB 0)
    ∧ (initialDB 0).rows.all (fun r => !r.is_admin) = false
    ∧ (runRegister ⟨[], 1⟩ 0 "Super" "Admin" "admin@example.com" "CHANGEME").2.rows.all
        (fun r => !r.is_admin) = true :=
  ⟨Reachable.init 0, rfl, rfl⟩

/-- An email that the table does not report as taken is not among the
stored emails. -/
theorem not_mem_emailsOf_of_not_taken (db : DB) (e : String)
    (h : emailTaken db e = false) : e ∉ emailsOf db := by
  simp only [emailTaken, List.any_eq_false, beq_iff_eq] at h
  simp only [emailsOf, List.mem_map, not_exists]
  rintro r ⟨hr, hre⟩
  exact h r hr hre

/-- One atomic step of a racing registration thread preserves the success
bound, the uniqueness of stored emails, and the error shape.  The `other`
argument is the success contribution of the non-stepping thread. -/
theorem thStep_good (inp : RegInput) (e : String) (hinp : inp.email = e)
    (t : ThState) (db : DB) (other : Nat)
    (hinv1 : emailTaken db e = true → (if isSuccess t then 1 else 0) + other ≤ 1)
    (hinv2 : emailTaken db e = false → (if isSuccess t then 1 else 0) + other = 0)
    (hnd : (emailsOf db).Nodup) (herr : errShape t) :
    (emailTaken (thStep inp t db).2 e = true →
      (if isSuccess (thStep inp t db).1 then 1 else 0) + other ≤ 1)
    ∧ (emailTaken (thStep inp t db).2 e = false →
      (if isSuccess (thStep inp t db).1 then 1 else 0) + other = 0)
    ∧ (emailsOf (thStep inp t db).2).Nodup
    ∧ errShape (thStep inp t db).1 := by
  cases t with
  | start =>
    by_cases hT : emailTaken db inp.email = true
    · simp only [thStep, hT, if_true]
      exact ⟨hinv1, hinv2, hnd, .inl rfl⟩
    · simp only [thStep, hT, if_false]
      exact ⟨hinv1, hinv2, hnd, trivial⟩
  | passed =>
    by_cases hT : emailTaken db inp.email = true
    · have hstep : thStep inp .passed db =
          (.done (.error .uniqueViolation), db) := by
        simp [thStep, insertMember, hT]
      rw [hstep]
      exact ⟨hinv1, hinv2, hnd, .inr rfl⟩
    · rw [Bool.not_eq_true] at hT
      have hother : other = 0 := by
        have := hinv2 (hinp ▸ hT)
        simp [isSuccess] at this
        exact this
      have hmem : e ∉ emailsOf db := not_mem_emailsOf_of_not_taken db e (hinp ▸ hT)
      have hstep : thStep inp .passed db =
          (.done (.ok ⟨db.seq, "member"⟩),
            ⟨db.rows ++ [⟨db.seq, inp.first, inp.last, inp.email,
              crypt inp.password (gen_salt inp.salt), false⟩], db.seq + 1⟩) := by
        simp [thStep, insertMember, hT]
      rw [hstep]
      have htaken : emailTaken
          (⟨db.rows ++ [⟨db.seq, inp.first, inp.last, inp.email,
            crypt inp.password (gen_salt inp.salt), false⟩], db.seq + 1⟩ : DB) e = true := by
        simp [emailTaken, hinp]
      have hnd' : (emailsOf
          (⟨db.rows ++ [⟨db.seq, inp.first, inp.last, inp.email,
            crypt inp.password (gen_salt inp.salt), false⟩], db.seq + 1⟩ : DB)).Nodup := by
        have hsplit : emailsOf
            (⟨db.rows ++ [⟨db.seq, inp.first, inp.last, inp.email,
              crypt inp.password (gen_salt inp.salt), false⟩], db.seq + 1⟩ : DB) =
            emailsOf db ++ [e] := by
          simp [emailsOf, hinp]
        rw [hsplit]
        refine List.Nodup.append hnd (List.nodup_singleton e) ?_
        intro x hx hx'
        simp only [List.mem_singleton] at hx'
        subst hx'
        exact hmem hx
      refine ⟨fun _ => ?_, fun hF => ?_, hnd', trivial⟩
      · simp [isSuccess, hother]
      · rw [htaken] at hF
        cases hF
  | done r =>
    exact ⟨hinv1, hinv2, hnd, herr⟩

/-- One scheduler step of the race preserves the race invariants. -/
theorem raceStep_good (ia ib : RegInput) (e : String) (hia : ia.email = e)
    (hib : ib.email = e) (st : RaceState) (w : Bool)
    (h : RaceGood e st) : RaceGood e (raceStep ia ib st w) := by
  obtain ⟨⟨h1, h2⟩, hnd, ha, hb⟩ := h
  cases w
  · -- thread B takes its step
    have step := thStep_good ib e hib st.b st.db (if isSuccess st.a then 1 else 0)
      (fun hT => by have := h1 hT; simp only [succCount] at this; omega)
      (fun hF => by have := h2 hF; simp only [succCount] at this; omega)
      hnd hb
    obtain ⟨g1, g2, gnd, gb⟩ := step
    refine ⟨⟨fun hT => ?_, fun hF => ?_⟩, ?_, ?_, ?_⟩ <;>
      simp only [raceStep, if_false, Bool.false_eq_true, succCount]
    · have := g1 hT
      omega
    · have := g2 hF
      omega
    · exact gnd
    · exact ha
    · exact gb
  · -- thread A takes its step
    have step := thStep_good ia e hia st.a st.db (if isSuccess st.b then 1 else 0)
      (fun hT => by have := h1 hT; simp only [succCount] at this; omega)
      (fun hF => by have := h2 hF; simp only [succCount] at this; omega)
      hnd ha
    obtain ⟨g1, g2, gnd, ga⟩ := step
    refine ⟨⟨fun hT => ?_, fun hF => ?_⟩, ?_, ?_, ?_⟩ <;>
      simp only [raceStep, if_true, succCount]
    · have := g1 hT
      omega
    · have := g2 hF
      omega
    · exact gnd
    · exact ga
    · exact hb

/-- Every interleaving of the race preserves the race invariants. -/
theorem raceRun_good (ia ib : RegInput) (e : String) (hia : ia.email = e)
    (hib : ib.email = e) (sched : List Bool) (st : RaceState)
    (h : RaceGood e st) : RaceGood e (raceRun ia ib st sched) := by
  induction sched generalizing st with
  | nil => exact h
  | cons w ws ih => exact ih (raceStep ia ib st w) (raceStep_good ia ib e hia hib st w h)

/-- C3 (amended): a register call against an already-present email fails
with the duplicate-email error and leaves the table unchanged; under every
interleaving of two registrations with the same email at most one
succeeds, the stored emails stay unique at all times, and each losing
call fails — with the duplicate-email error when its pre-check sees the
committed row, or with the unique-constraint violation when the race
passes both pre-checks — writing nothing. -/
theorem register_email_uniqueness (ia ib : RegInput) (db : DB)
    (sched : List Bool) (hib : ib.email = ia.email)
    (hnd : (emailsOf db).Nodup) :
    succCount (raceRun ia ib ⟨.start, .start, db⟩ sched) ≤ 1
    ∧ (emailsOf (raceRun ia ib ⟨.start, .start, db⟩ sched).db).Nodup
    ∧ errShape (raceRun ia ib ⟨.start, .start, db⟩ sched).a
    ∧ errShape (raceRun ia ib ⟨.start, .start, db⟩ sched).b
    ∧ (∀ salt f l p, emailTaken db ia.email = true →
        runRegister db salt f l ia.email p = (.error .emailExists, db)) := by
  have hgood : RaceGood ia.email (raceRun ia ib ⟨.start, .start, db⟩ sched) := by
    refine raceRun_good ia ib ia.email rfl hib sched _ ⟨⟨fun _ => ?_, fun _ => ?_⟩,
      hnd, trivial, trivial⟩
    · simp [succCount, isSuccess]
    · simp [succCount, isSuccess]
  obtain ⟨⟨g1, g2⟩, gnd, ga, gb⟩ := hgood
  refine ⟨?_, gnd, ga, gb, ?_⟩
  · cases hv : emailTaken (raceRun ia ib ⟨.start, .start, db⟩ sched).db ia.email with
    | false => rw [g2 hv]; exact Nat.zero_le 1
    | true => exact g1 hv
  · intro salt f l p hdup
    simp [runRegister, register_member, hdup]

/-- Witness for C3 (amended): for the concrete race of two registrations
of alice@example.com on an empty table under the fully interleaved
schedule, at most one succeeds and the final emails are unique. -/
theorem register_email_uniqueness_witness :
    demoRegB.email = demoRegA.email
    ∧ (emailsOf ⟨[], 1⟩).Nodup
    ∧ succCount (raceRun demoRegA demoRegB ⟨.start, .start, ⟨[], 1⟩⟩
        [true, false, true, false]) ≤ 1
    ∧ (emailsOf (raceRun demoRegA demoRegB ⟨.start, .start, ⟨[], 1⟩⟩
        [true, false, true, false]).db).Nodup :=
  ⟨rfl, List.nodup_nil,
    (register_email_uniqueness demoRegA demoRegB ⟨[], 1⟩
      [true, false, true, false] rfl List.nodup_nil).1,
    (register_email_uniqueness demoRegA demoRegB ⟨[], 1⟩
      [true, false, true, false] rfl List.nodup_nil).2.1⟩

/-- C3 counterexample: in the interleaving where both pre-checks run
before either insert, the losing registration ends with the
unique-constraint violation, a different error from the duplicate-email
exception — so not all losers receive the DuplicateEmail error. -/
theorem register_race_loser_gets_unique_violation :
    (raceRun demoRegA demoRegB ⟨.start, .start, ⟨[], 1⟩⟩
      [true, false, true, false]).a = .done (.ok ⟨1, "member"⟩)
    ∧ (raceRun demoRegA demoRegB ⟨.start, .start, ⟨[], 1⟩⟩
      [true, false, true, false]).b = .done (.error .uniqueViolation)
    ∧ SqlError.uniqueViolation ≠ SqlError.emailExists :=
  ⟨rfl, rfl, by decide⟩

end CoopMembers
